import Mathlib

/-!
Shallow embedding of src/routes/Books.js from the bookshelf-api repository.

JS values are modelled by an inductive type covering the strings, integer
numbers, booleans, null and undefined that the routes manipulate; JS objects
are association lists of string keys in property-insertion order, and the
private shelf object is an association list from id strings to book objects.
Abstractions: Date.toISOString is an injective rendering of an abstract Nat
clock (each request is a single atomic step, so both timestamp reads inside
one operation see the same instant), number values are integers (the routes
only produce and compare integer data), and ToNumber on strings covers the
integer literals exercised by the routes.
-/

deriving instance DecidableEq for Except

namespace Books

/-- The JS values flowing through the Books routes. -/
inductive JSValue : Type
  | str (s : String)
  | num (n : Int)
  | bool (b : Bool)
  | nullv
  | undefined
deriving DecidableEq, Repr

/-- Own enumerable properties of a plain JS object, in key-insertion order. -/
abbrev JSObj := List (String × JSValue)

/-- The private shelf object: id keys mapped to stored book objects. -/
abbrev Shelf := List (String × JSObj)

/-- Own-property read, first matching key. -/
def assocGet? {α : Type} : List (String × α) → String → Option α
  | [], _ => none
  | e :: rest, k => if e.1 = k then some e.2 else assocGet? rest k

/-- JS property assignment: update the existing key in place, else append. -/
def assocSet {α : Type} : List (String × α) → String → α → List (String × α)
  | [], k, v => [(k, v)]
  | e :: rest, k, v => if e.1 = k then (k, v) :: rest else e :: assocSet rest k v

/-- Object.prototype.hasOwnProperty. -/
def assocHas {α : Type} (l : List (String × α)) (k : String) : Bool :=
  (assocGet? l k).isSome

/-- The JS delete operator on an own key. -/
def assocErase {α : Type} (l : List (String × α)) (k : String) : List (String × α) :=
  l.eraseP (fun e => decide (e.1 = k))

/-- Property read on a book object: absent keys give undefined. -/
def objGet (o : JSObj) (k : String) : JSValue := (assocGet? o k).getD .undefined

/-- Object.keys(o).includes(k). -/
def objHas (o : JSObj) (k : String) : Bool := assocHas o k

/-- Object spread: fold the entries of o onto the accumulator object. -/
def objSpread (a : JSObj) (o : JSObj) : JSObj :=
  o.foldl (fun acc e => assocSet acc e.1 e.2) a

/-- JS truthiness of a value. -/
def jsTruthy : JSValue → Bool
  | .str s => decide (s ≠ "")
  | .num n => decide (n ≠ 0)
  | .bool b => b
  | .nullv => false
  | .undefined => false

/-- The typeof operator. -/
def jsTypeof : JSValue → String
  | .str _ => "string"
  | .num _ => "number"
  | .bool _ => "boolean"
  | .nullv => "object"
  | .undefined => "undefined"

/-- String(v) on our value domain. -/
def jsToString : JSValue → String
  | .str s => s
  | .num n => toString n
  | .bool true => "true"
  | .bool false => "false"
  | .nullv => "null"
  | .undefined => "undefined"

/-- toLowerCase, computed on the character list so that it reduces. -/
def strLower (s : String) : String := String.mk (s.data.map Char.toLower)

/-- Whitespace trim on both ends, on the character list. -/
def strTrim (s : String) : String :=
  String.mk (((s.data.dropWhile Char.isWhitespace).reverse.dropWhile Char.isWhitespace).reverse)

/-- Parse a nonempty run of decimal digits. -/
def digitsToNat (cs : List Char) : Option Nat :=
  if cs = [] then none
  else if cs.all Char.isDigit then
    some (cs.foldl (fun a c => a * 10 + (c.toNat - 48)) 0)
  else none

/-- Integer literal parsing, optionally signed. -/
def strToInt? (s : String) : Option Int :=
  match s.data with
  | '-' :: rest => (digitsToNat rest).map (fun n => -(n : Int))
  | l => (digitsToNat l).map (fun n => (n : Int))

/-- JS ToNumber on a string (integer literals; blank strings give 0),
none standing for NaN. -/
def strToNumber (s : String) : Option Int :=
  let t := strTrim s
  if t = "" then some 0 else strToInt? t

/-- JS ToNumber, i.e. the unary plus; none stands for NaN. -/
def jsToNumber : JSValue → Option Int
  | .str s => strToNumber s
  | .num n => some n
  | .bool b => some (if b then 1 else 0)
  | .nullv => some 0
  | .undefined => none

/-- Lexicographic comparison of character lists (JS code-unit order). -/
def charListLt : List Char → List Char → Bool
  | [], [] => false
  | [], _ :: _ => true
  | _ :: _, [] => false
  | a :: as, b :: bs =>
    if a < b then true else if b < a then false else charListLt as bs

/-- The JS relational operator a > b: lexicographic on two strings, otherwise
numeric after ToNumber, false whenever an operand converts to NaN. -/
def jsGreater (a b : JSValue) : Bool :=
  match a, b with
  | .str x, .str y => charListLt y.data x.data
  | _, _ =>
    match jsToNumber a, jsToNumber b with
    | some x, some y => decide (y < x)
    | _, _ => false

/-- Strict equality a === b; on this value domain (no NaN, integer numbers)
it coincides with structural equality. -/
def jsStrictEq (a b : JSValue) : Bool := decide (a = b)

/-- new Date().toISOString() under an abstract Nat clock; injective. -/
def isoString (n : Nat) : String := "1970-01-01T00:00:00." ++ toString n ++ "Z"

/-- String.prototype.includes: substring containment, on character lists. -/
def substrIncludes (s sub : String) : Bool :=
  (List.range (s.data.length + 1)).any fun i => sub.data.isPrefixOf (s.data.drop i)

/-- The recognized fields table of validatePayload, in declaration order. -/
def bookObjectProperties : List (String × String) :=
  [("name", "string"), ("year", "number"), ("author", "string"),
   ("summary", "string"), ("publisher", "string"), ("pageCount", "number"),
   ("readPage", "number"), ("reading", "boolean")]

/-- Result of validatePayload: either a status/message pair, or the bare
value false returned when no recognized field is present in the payload. -/
inductive ValidationResult : Type
  | res (status : Bool) (message : String)
  | falseVal
deriving DecidableEq, Repr

/-- validatePayload from Books.js. The for-in loop over the recognized
field table returns on the FIRST key present in the payload, so only that
one field is ever type-checked; with no recognized key present the JS
function falls through to return false. -/
def validatePayload (book : JSObj) : ValidationResult :=
  match bookObjectProperties.find? (fun kv => objHas book kv.1) with
  | none => .falseVal
  | some kv =>
    if !jsTruthy (objGet book "name") then .res false "empty name"
    else if jsGreater (objGet book "readPage") (objGet book "pageCount") then
      .res false "readerPage is bigger then pageCount"
    else if jsTypeof (objGet book kv.1) ≠ kv.2 then .res false "generic error"
    else .res true "ok"

/-- Truthiness of the destructured status field (undefined when the
validator returned the bare false). -/
def vStatus : ValidationResult → Bool
  | .res s _ => s
  | .falseVal => false

/-- The destructured message field; none models undefined. -/
def vMessage : ValidationResult → Option String
  | .res _ m => some m
  | .falseVal => none

/-- addBook from Books.js: stamp finished, insertedAt, updatedAt and id onto
the payload object and store it under the fresh id. -/
def addBook (shelf : Shelf) (book : JSObj) (newId : String) (now : Nat) :
    Shelf × String :=
  let b1 := assocSet book "finished"
    (.bool (jsStrictEq (objGet book "pageCount") (objGet book "readPage")))
  let b2 := assocSet b1 "insertedAt" (.str (isoString now))
  let b3 := assocSet b2 "updatedAt" (.str (isoString now))
  let b4 := assocSet b3 "id" (.str newId)
  (assocSet shelf newId b4, newId)

/-- A handler response: http code, status and message fields, and the
bookId carried by a successful create. -/
structure HResult where
  status : String
  message : String
  code : Nat
  bookId : Option String := none
deriving DecidableEq, Repr

/-- postHandler from Books.js (POST /books). -/
def postHandler (shelf : Shelf) (payload : JSObj) (newId : String) (now : Nat) :
    Shelf × HResult :=
  let v := validatePayload payload
  if vStatus v then
    let r := addBook shelf payload newId now
    (r.1, { status := "success", message := "Buku berhasil ditambahkan",
            code := 201, bookId := some r.2 })
  else if vMessage v = some "generic error" then
    (shelf, { status := "fail", message := "Buku gagal ditambahkan", code := 500 })
  else if vMessage v = some "empty name" then
    (shelf, { status := "fail",
              message := "Gagal menambahkan buku. Mohon isi nama buku", code := 400 })
  else
    (shelf, { status := "fail",
              message := "Gagal menambahkan buku. readPage tidak boleh lebih besar dari pageCount",
              code := 400 })

/-- updateBook from Books.js, as invoked from putHandler: the argument
newBook is the STORED object shelf[bookId] itself (the handler passes the
data field of findBook, not the request payload). The JS first mutates that
shared object (newBook.updatedAt = updatedAt), then assigns
shelf[newBook.id] the literal consisting of updatedAt followed by two
spreads of that same object, and returns true (the assignment cannot
throw). The none branch is unreachable from putHandler, which is guarded by
findBook. -/
def updateBook (shelf : Shelf) (bookId : String) (now : Nat) : Shelf × Bool :=
  match assocGet? shelf bookId with
  | none => (shelf, true)
  | some data =>
    let data2 := assocSet data "updatedAt" (.str (isoString now))
    let shelf2 := assocSet shelf bookId data2
    let targetId := jsToString (objGet data2 "id")
    let target := (assocGet? shelf2 targetId).getD []
    let merged := objSpread (objSpread [("updatedAt", JSValue.str (isoString now))] data2) target
    (assocSet shelf2 targetId merged, true)

/-- putHandler from Books.js (PUT /books/id). Note the handler compares the
validator message against the string "general error" although the validator
produces "generic error", and on success it hands updateBook the stored
record, not the request payload. updateBook always returns true, so the JS
branch that would return no response is dead. -/
def putHandler (shelf : Shelf) (bookId : String) (payload : JSObj) (now : Nat) :
    Shelf × HResult :=
  if !assocHas shelf bookId then
    (shelf, { status := "fail",
              message := "Gagal memperbarui buku. Id tidak ditemukan", code := 404 })
  else
    let v := validatePayload payload
    if !vStatus v then
      if vMessage v = some "general error" then
        (shelf, { status := "fail", message := "Gagal memperbarui buku", code := 500 })
      else if vMessage v = some "empty name" then
        (shelf, { status := "fail",
                  message := "Gagal memperbarui buku. Mohon isi nama buku", code := 400 })
      else
        (shelf, { status := "fail",
                  message := "Gagal memperbarui buku. readPage tidak boleh lebih besar dari pageCount",
                  code := 400 })
    else
      let r := updateBook shelf bookId now
      (r.1, { status := "success", message := "Buku berhasil diperbarui", code := 200 })

/-- deleteHandler from Books.js (DELETE /books/id): findBook uses
hasOwnProperty, so only stored entries are found. -/
def deleteHandler (shelf : Shelf) (bookId : String) : Shelf × HResult :=
  if !assocHas shelf bookId then
    (shelf, { status := "fail",
              message := "Buku gagal dihapus. Id tidak ditemukan", code := 404 })
  else
    (assocErase shelf bookId,
     { status := "success", message := "Buku berhasil dihapus", code := 200 })

/-- The own property names of Object.prototype that a bracket read on the
plain shelf object reaches through the prototype chain. -/
def objectProtoKeys : List String :=
  ["constructor", "hasOwnProperty", "isPrototypeOf", "propertyIsEnumerable",
   "toLocaleString", "toString", "valueOf"]

/-- What getBooks can hand the detail branch of the GET handler. -/
inductive DetailVal : Type
  | allList (books : List JSObj)
  | book (b : JSObj)
  | protoMember (name : String)
deriving DecidableEq, Repr

/-- getBooks(opt) with a string argument: the literal string all returns
every book, otherwise the bracket read shelf[opt], which falls through to
the Object prototype for its member names; none models undefined. -/
def getBooksById (shelf : Shelf) (bookId : String) : Option DetailVal :=
  if bookId = "all" then some (.allList (shelf.map (fun e => e.2)))
  else
    match assocGet? shelf bookId with
    | some b => some (.book b)
    | none => if bookId ∈ objectProtoKeys then some (.protoMember bookId) else none

/-- The coercion applied to each query value inside the filter:
String(isNaN(+value) ? value : !!+value). A value parsing as a number is
replaced by the BOOLEAN of that number. -/
def coerceQuery (value : JSValue) : JSValue :=
  match jsToNumber value with
  | none => value
  | some n => .bool (decide (n ≠ 0))

/-- The per-term test of the filter: lowercase substring containment of the
coerced query value inside the stringified book field. -/
def termMatches (book : JSObj) (key : String) (value : JSValue) : Bool :=
  substrIncludes (strLower (jsToString (objGet book key)))
    (strLower (jsToString (coerceQuery value)))

/-- The inner for loop of filterBooksBasedOnQuerys over the term indices:
set slot i when term i matches, then test isPassed.every inside the SAME
loop iteration, then isPassed.fill(0). -/
def filterInner (book : JSObj) (querys : JSObj) :
    List Nat → List Bool → List JSObj → List Bool × List JSObj
  | [], isPassed, bag => (isPassed, bag)
  | i :: rest, isPassed, bag =>
    match querys.get? i with
    | none => (isPassed, bag)
    | some kv =>
      let isPassed1 := if termMatches book kv.1 kv.2 then isPassed.set i true else isPassed
      let bag1 := if isPassed1.all (fun t => t) then bag ++ [book] else bag
      filterInner book querys rest (List.replicate querys.length false) bag1

/-- The outer loop of filterBooksBasedOnQuerys over Object.values(shelf);
the Int8Array isPassed is allocated once and threaded across books. -/
def filterOuter (querys : JSObj) : List JSObj → List Bool → List JSObj → List JSObj
  | [], _, bag => bag
  | book :: rest, isPassed, bag =>
    let r := filterInner book querys (List.range querys.length) isPassed bag
    filterOuter querys rest r.1 r.2

/-- filterBooksBasedOnQuerys from Books.js; the error value models the
thrown Error on an empty query object. -/
def filterBooksBasedOnQuerys (shelf : Shelf) (queryObj : JSObj) :
    Except String (List JSObj) :=
  if queryObj.length = 0 then .error "queryObj is an empty object"
  else .ok (filterOuter queryObj (shelf.map (fun e => e.2))
    (List.replicate queryObj.length false) [])

/-- The response of the GET handler in its three modes. -/
inductive GetRes : Type
  | queryList (books : Except String (List JSObj))
  | detailFound (v : DetailVal)
  | detailNotFound
  | allBooks (books : List JSObj)
deriving Repr

/-- The http status code attached to each GET response shape. -/
def GetRes.httpCode : GetRes → Nat
  | .queryList _ => 200
  | .detailFound _ => 200
  | .detailNotFound => 404
  | .allBooks _ => 200

/-- getHandler from Books.js: a nonempty query wins, then a truthy bookId
path parameter selects the detail branch, else all books are returned. -/
def getHandler (shelf : Shelf) (query : JSObj) (bookIdParam : Option String) : GetRes :=
  if query.length ≠ 0 then .queryList (filterBooksBasedOnQuerys shelf query)
  else if (bookIdParam.getD "") ≠ "" then
    match getBooksById shelf (bookIdParam.getD "") with
    | none => .detailNotFound
    | some v => .detailFound v
  else .allBooks (shelf.map (fun e => e.2))

/-- One handler-level ResourceStore operation. The create step carries the
collision freedom assumed of nanoid and the fact that a JS object parsed
from a request body has no duplicate keys. -/
inductive Step : Shelf → Shelf → Prop
  | create (s : Shelf) (payload : JSObj) (newId : String) (now : Nat)
      (hkeys : (payload.map Prod.fst).Nodup)
      (hfresh : assocGet? s newId = none) :
      Step s (postHandler s payload newId now).1
  | update (s : Shelf) (bookId : String) (payload : JSObj) (now : Nat) :
      Step s (putHandler s bookId payload now).1
  | remove (s : Shelf) (bookId : String) :
      Step s (deleteHandler s bookId).1
  | retrieve (s : Shelf) : Step s s

/-- Shelf states reachable from the empty shelf by handler operations. -/
inductive Reachable : Shelf → Prop
  | init : Reachable []
  | step {s s' : Shelf} : Reachable s → Step s s' → Reachable s'

/-- The invariant carried through the reachability proof: shelf keys are
distinct, every stored book has distinct property keys, and its id property
equals its shelf key. -/
def ShelfInv (s : Shelf) : Prop :=
  (s.map Prod.fst).Nodup ∧
  ∀ e ∈ s, (e.2.map Prod.fst).Nodup ∧ objGet e.2 "id" = .str e.1

/-- A sample valid create payload (readPage below pageCount). -/
def dunePayload : JSObj :=
  [("name", .str "Dune"), ("author", .str "Herbert"),
   ("readPage", .num 5), ("pageCount", .num 9)]

/-- The shelf after creating the sample book under id B1 at time 3. -/
def sampleShelf : Shelf := (postHandler [] dunePayload "B1" 3).1

/-- A shelf holding a single book whose year field is the number 1965. -/
def shelfYear : Shelf :=
  (postHandler [] [("name", .str "Dune"), ("year", .num 1965)] "B1" 3).1

theorem assocGet?_assocSet_self {α : Type} (l : List (String × α)) (k : String) (v : α) :
    assocGet? (assocSet l k v) k = some v := by
  induction l with
  | nil => simp [assocSet, assocGet?]
  | cons e rest ih =>
    by_cases h : e.1 = k
    · simp [assocSet, h, assocGet?]
    · simp [assocSet, h, assocGet?, ih]

theorem assocGet?_assocSet_ne {α : Type} (l : List (String × α)) (k q : String) (v : α)
    (h : q ≠ k) : assocGet? (assocSet l k v) q = assocGet? l q := by
  induction l with
  | nil => simp [assocSet, assocGet?, Ne.symm h]
  | cons e rest ih =>
    obtain ⟨e1, e2⟩ := e
    by_cases he : e1 = k
    · subst he
      simp [assocSet, assocGet?, Ne.symm h]
    · by_cases hq : e1 = q
      · simp [assocSet, he, assocGet?, hq, h]
      · simp [assocSet, he, assocGet?, hq, ih]

theorem assocGet?_eq_none_iff {α : Type} (l : List (String × α)) (k : String) :
    assocGet? l k = none ↔ k ∉ l.map Prod.fst := by
  induction l with
  | nil => simp [assocGet?]
  | cons e rest ih =>
    by_cases h : e.1 = k
    · simp [assocGet?, h]
    · simp [assocGet?, h, ih, List.mem_cons, Ne.symm h]

theorem assocGet?_mem {α : Type} {l : List (String × α)} {k : String} {v : α}
    (h : assocGet? l k = some v) : (k, v) ∈ l := by
  induction l with
  | nil => simp [assocGet?] at h
  | cons e rest ih =>
    by_cases he : e.1 = k
    · obtain ⟨e1, e2⟩ := e
      obtain rfl : e1 = k := he
      rw [assocGet?, if_pos rfl] at h
      obtain rfl : e2 = v := by injection h
      exact List.mem_cons_self _ _
    · rw [assocGet?, if_neg he] at h
      exact List.mem_cons_of_mem _ (ih h)

theorem mem_assocSet {α : Type} {l : List (String × α)} {k : String} {v : α} {e : String × α}
    (h : e ∈ assocSet l k v) : e = (k, v) ∨ e ∈ l := by
  induction l with
  | nil =>
    simp only [assocSet] at h
    exact Or.inl (List.mem_singleton.mp h)
  | cons x rest ih =>
    by_cases hx : x.1 = k
    · simp only [assocSet, if_pos hx] at h
      rcases List.mem_cons.mp h with h | h
      · exact Or.inl h
      · exact Or.inr (List.mem_cons_of_mem _ h)
    · simp only [assocSet, if_neg hx] at h
      rcases List.mem_cons.mp h with h | h
      · exact Or.inr (h ▸ List.mem_cons_self _ _)
      · rcases ih h with h2 | h2
        · exact Or.inl h2
        · exact Or.inr (List.mem_cons_of_mem _ h2)

theorem map_fst_assocSet {α : Type} (l : List (String × α)) (k : String) (v : α) :
    (assocSet l k v).map Prod.fst =
      if k ∈ l.map Prod.fst then l.map Prod.fst else l.map Prod.fst ++ [k] := by
  induction l with
  | nil => simp [assocSet]
  | cons e rest ih =>
    by_cases h : e.1 = k
    · simp [assocSet, h]
    · simp only [assocSet, if_neg h, List.map_cons, ih]
      by_cases hm : k ∈ rest.map Prod.fst
      · simp [hm, List.mem_cons, Ne.symm h]
      · simp [hm, List.mem_cons, Ne.symm h]

theorem nodup_assocSet {α : Type} (l : List (String × α)) (k : String) (v : α)
    (h : (l.map Prod.fst).Nodup) : ((assocSet l k v).map Prod.fst).Nodup := by
  rw [map_fst_assocSet]
  by_cases hm : k ∈ l.map Prod.fst
  · simpa [hm] using h
  · simp only [hm, if_false]
    exact List.Nodup.append h (List.nodup_singleton k) (by simpa using hm)

theorem length_assocSet_of_none {α : Type} (l : List (String × α)) (k : String) (v : α)
    (h : assocGet? l k = none) : (assocSet l k v).length = l.length + 1 := by
  induction l with
  | nil => simp [assocSet]
  | cons e rest ih =>
    by_cases he : e.1 = k
    · simp [assocGet?, he] at h
    · simp only [assocGet?, if_neg he] at h
      simp [assocSet, he, ih h]

theorem assocGet?_objSpread (a o : JSObj) (k : String) (h : (o.map Prod.fst).Nodup) :
    assocGet? (objSpread a o) k =
      if (assocGet? o k).isSome then assocGet? o k else assocGet? a k := by
  induction o generalizing a with
  | nil => simp [objSpread, assocGet?]
  | cons e rest ih =>
    obtain ⟨e1, e2⟩ := e
    simp only [List.map_cons, List.nodup_cons] at h
    have step : objSpread a ((e1, e2) :: rest) = objSpread (assocSet a e1 e2) rest := by
      simp [objSpread]
    rw [step, ih _ h.2]
    by_cases he : e1 = k
    · subst he
      have hnone : assocGet? rest e1 = none := by
        rw [assocGet?_eq_none_iff]
        exact h.1
      simp [assocGet?, hnone, assocGet?_assocSet_self]
    · simp [assocGet?, he, assocGet?_assocSet_ne a e1 k e2 (Ne.symm he)]

theorem nodup_objSpread (a o : JSObj) (h : (a.map Prod.fst).Nodup) :
    ((objSpread a o).map Prod.fst).Nodup := by
  induction o generalizing a with
  | nil => simpa [objSpread] using h
  | cons e rest ih =>
    have step : objSpread a (e :: rest) = objSpread (assocSet a e.1 e.2) rest := by
      simp [objSpread]
    rw [step]
    exact ih _ (nodup_assocSet a e.1 e.2 h)

theorem assocGet?_assocErase_ne {α : Type} (l : List (String × α)) (k q : String)
    (h : q ≠ k) : assocGet? (assocErase l k) q = assocGet? l q := by
  induction l with
  | nil => simp [assocErase, assocGet?]
  | cons e rest ih =>
    obtain ⟨e1, e2⟩ := e
    by_cases he : e1 = k
    · subst he
      simp [assocErase, List.eraseP_cons, assocGet?, Ne.symm h]
    · by_cases hq : e1 = q
      · simp [assocErase, List.eraseP_cons, he, assocGet?, hq, h]
      · simpa [assocErase, List.eraseP_cons, he, assocGet?, hq] using ih

theorem assocGet?_assocErase_self {α : Type} (l : List (String × α)) (k : String)
    (h : (l.map Prod.fst).Nodup) : assocGet? (assocErase l k) k = none := by
  induction l with
  | nil => simp [assocErase, assocGet?]
  | cons e rest ih =>
    obtain ⟨e1, e2⟩ := e
    simp only [List.map_cons, List.nodup_cons] at h
    by_cases he : e1 = k
    · subst he
      simp only [assocErase, List.eraseP_cons, decide_eq_true_eq, if_pos rfl, cond_eq_if]
      rw [assocGet?_eq_none_iff]
      exact h.1
    · simpa [assocErase, List.eraseP_cons, he, assocGet?] using ih h.2

theorem mem_assocErase {α : Type} {l : List (String × α)} {k : String} {e : String × α}
    (h : e ∈ assocErase l k) : e ∈ l :=
  (List.eraseP_sublist l).subset h

theorem nodup_assocErase {α : Type} (l : List (String × α)) (k : String)
    (h : (l.map Prod.fst).Nodup) : ((assocErase l k).map Prod.fst).Nodup :=
  ((List.eraseP_sublist l).map Prod.fst).nodup h

theorem filterInner_two (book : JSObj) (q0 q1 : String × JSValue) (bag : List JSObj) :
    filterInner book [q0, q1] [0, 1] [false, false] bag = ([false, false], bag) := by
  cases h0 : termMatches book q0.1 q0.2 <;> cases h1 : termMatches book q1.1 q1.2 <;>
    simp [filterInner, h0, h1, List.replicate]

theorem filterOuter_two (q0 q1 : String × JSValue) (books : List JSObj)
    (bag : List JSObj) :
    filterOuter [q0, q1] books [false, false] bag = bag := by
  induction books generalizing bag with
  | nil => simp [filterOuter]
  | cons b rest ih =>
    have hr : List.range ([q0, q1] : JSObj).length = [0, 1] := rfl
    simp only [filterOuter, hr, List.replicate, filterInner_two]
    exact ih bag

/-- Any query object with two entries makes the filter return the empty
list: the every check runs inside the per-term loop, where at most the
current slot of isPassed is set. -/
theorem filter_two_terms (s : Shelf) (q0 q1 : String × JSValue) :
    filterBooksBasedOnQuerys s [q0, q1] = .ok [] := by
  simp [filterBooksBasedOnQuerys, List.replicate, filterOuter_two]

theorem filterInner_one (book : JSObj) (q0 : String × JSValue) (bag : List JSObj) :
    filterInner book [q0] [0] [false] bag =
      ([false], if termMatches book q0.1 q0.2 then bag ++ [book] else bag) := by
  cases h0 : termMatches book q0.1 q0.2 <;> simp [filterInner, h0, List.replicate]

theorem filterOuter_one (q0 : String × JSValue) (books : List JSObj)
    (bag : List JSObj) :
    filterOuter [q0] books [false] bag =
      bag ++ books.filter (fun b => termMatches b q0.1 q0.2) := by
  induction books generalizing bag with
  | nil => simp [filterOuter]
  | cons b rest ih =>
    have hr : List.range ([q0] : JSObj).length = [0] := rfl
    simp only [filterOuter, hr, List.replicate, filterInner_one]
    cases h0 : termMatches b q0.1 q0.2 <;> simp [h0, ih, List.filter_cons]

/-- A single-term query filters Object.values of the shelf by the per-term
matcher, in collection order. -/
theorem filter_one_term (s : Shelf) (k : String) (v : JSValue) :
    filterBooksBasedOnQuerys s [(k, v)] =
      .ok ((s.map (fun e => e.2)).filter (fun b => termMatches b k v)) := by
  simpa [filterBooksBasedOnQuerys, List.replicate] using
    filterOuter_one (k, v) (s.map (fun e => e.2)) []

theorem objGet_assocSet_self (o : JSObj) (k : String) (v : JSValue) :
    objGet (assocSet o k v) k = v := by
  simp [objGet, assocGet?_assocSet_self]

theorem objGet_assocSet_ne (o : JSObj) (k q : String) (v : JSValue) (h : q ≠ k) :
    objGet (assocSet o k v) q = objGet o q := by
  simp [objGet, assocGet?_assocSet_ne o k q v h]

theorem assocSet_assocSet_same {α : Type} (l : List (String × α)) (k : String) (v w : α) :
    assocSet (assocSet l k v) k w = assocSet l k w := by
  induction l with
  | nil => simp [assocSet]
  | cons e rest ih =>
    by_cases he : e.1 = k
    · simp [assocSet, he]
    · simp [assocSet, he, ih]

/-- C2: the claim says a book is returned exactly when every query term
matches it; here both terms of a two-term query match the stored book, yet
the filter returns the empty list, because the every check runs inside the
per-term loop right after isPassed is cleared. -/
theorem c2_all_terms_match_yet_excluded :
    termMatches ((assocGet? sampleShelf "B1").getD []) "name" (.str "dun") = true ∧
    termMatches ((assocGet? sampleShelf "B1").getD []) "author" (.str "her") = true ∧
    filterBooksBasedOnQuerys sampleShelf
      [("name", .str "dun"), ("author", .str "her")] = .ok [] := by
  refine ⟨by decide, by decide, ?_⟩
  exact filter_two_terms sampleShelf ("name", .str "dun") ("author", .str "her")

/-- C9: reordering the two terms of a query mapping does not change the
filter result; on this code both runs of any two-term query produce the
empty list, so the results coincide. -/
theorem c9_filter_term_order_irrelevant (s : Shelf) (a b : String) (x y : JSValue)
    (hab : a ≠ b) :
    filterBooksBasedOnQuerys s [(a, x), (b, y)] =
      filterBooksBasedOnQuerys s [(b, y), (a, x)] := by
  rw [filter_two_terms, filter_two_terms]

theorem c9_witness :
    ("name" : String) ≠ "author" ∧
    filterBooksBasedOnQuerys sampleShelf
        [("name", .str "dun"), ("author", .str "her")] =
      filterBooksBasedOnQuerys sampleShelf
        [("author", .str "her"), ("name", .str "dun")] :=
  ⟨by decide, c9_filter_term_order_irrelevant sampleShelf "name" "author"
    (.str "dun") (.str "her") (by decide)⟩

/-- C4: on a stored id, an update payload whose only recognized field has
the wrong semantic type makes the validator produce the generic kind, but
the put handler answers 400 with the readPage message instead of the 500 the
claim requires: it compares the message against the string general error
while the validator produces generic error, so the 500 branch is dead. -/
theorem c4_update_generic_gives_400_not_500 :
    vMessage (validatePayload [("name", JSValue.num 5)]) = some "generic error" ∧
    (putHandler sampleShelf "B1" [("name", JSValue.num 5)] 8).2.code = 400 ∧
    (putHandler sampleShelf "B1" [("name", JSValue.num 5)] 8).2.code ≠ 500 ∧
    (putHandler sampleShelf "B1" [("name", JSValue.num 5)] 8).2.message =
      "Gagal memperbarui buku. readPage tidak boleh lebih besar dari pageCount" := by
  decide

/-- C5 counterexample: a payload with a well-typed name and an ill-typed
year is ACCEPTED by the validator, because the rule loop returns after
examining only the first recognized field present (name). -/
theorem c5_counterexample :
    objHas [("name", JSValue.str "x"), ("year", JSValue.str "bad")] "year" = true ∧
    jsTypeof (objGet [("name", JSValue.str "x"), ("year", JSValue.str "bad")] "year")
      ≠ "number" ∧
    validatePayload [("name", JSValue.str "x"), ("year", JSValue.str "bad")] =
      .res true "ok" := by
  decide

/-- C5 amended: with a truthy name and readPage not above pageCount, the
validator only type-checks the FIRST recognized field present in the fixed
property order, accepting exactly when that one field matches its declared
type. -/
theorem c5_only_first_present_field_type_checked (book : JSObj) (key ty : String)
    (hfind : bookObjectProperties.find? (fun kv => objHas book kv.1) = some (key, ty))
    (hname : jsTruthy (objGet book "name") = true)
    (hpage : jsGreater (objGet book "readPage") (objGet book "pageCount") = false) :
    validatePayload book =
      if jsTypeof (objGet book key) = ty then .res true "ok"
      else .res false "generic error" := by
  simp only [validatePayload, hfind, hname, hpage, Bool.not_true, if_false, ne_eq]
  by_cases h : jsTypeof (objGet book key) = ty <;> simp [h]

theorem c5_witness :
    bookObjectProperties.find?
        (fun kv => objHas [("name", JSValue.str "x"), ("year", JSValue.str "bad")] kv.1) =
      some ("name", "string") ∧
    validatePayload [("name", JSValue.str "x"), ("year", JSValue.str "bad")] =
      (if jsTypeof (objGet [("name", JSValue.str "x"), ("year", JSValue.str "bad")] "name") =
          "string" then .res true "ok" else .res false "generic error") :=
  ⟨by decide, c5_only_first_present_field_type_checked
    [("name", JSValue.str "x"), ("year", JSValue.str "bad")] "name" "string"
    (by decide) (by decide) (by decide)⟩

/-- C6 counterexample: the stored book has year 1965 as a number, but the
query year 1965 does not return it: the filter replaces a numeric-parsing
query value by the string of its boolean, so it searches the stringified
year for the substring true. -/
theorem c6_counterexample :
    objGet ((assocGet? shelfYear "B1").getD []) "year" = JSValue.num 1965 ∧
    filterBooksBasedOnQuerys shelfYear [("year", JSValue.str "1965")] = .ok [] := by
  decide

/-- C6 amended: a single query term whose value parses as the number n
selects exactly the books whose stringified, lowercased field contains the
substring false when n is zero and true otherwise. -/
theorem c6_numeric_query_boolean_coercion (s : Shelf) (k : String) (v : JSValue)
    (n : Int) (h : jsToNumber v = some n) :
    filterBooksBasedOnQuerys s [(k, v)] =
      .ok ((s.map (fun e => e.2)).filter
        (fun b => substrIncludes (strLower (jsToString (objGet b k)))
          (if n = 0 then "false" else "true"))) := by
  rw [filter_one_term]
  congr 1
  apply List.filter_congr
  intro b _
  simp only [termMatches, coerceQuery, h]
  by_cases hn : n = 0
  · have hb : JSValue.bool (decide (n ≠ 0)) = JSValue.bool false := by simp [hn]
    rw [hb, if_pos hn]
    have hs : strLower (jsToString (JSValue.bool false)) = "false" := rfl
    rw [hs]
  · have hb : JSValue.bool (decide (n ≠ 0)) = JSValue.bool true := by simp [hn]
    rw [hb, if_neg hn]
    have hs : strLower (jsToString (JSValue.bool true)) = "true" := rfl
    rw [hs]

theorem c6_witness :
    jsToNumber (JSValue.str "1965") = some 1965 ∧
    filterBooksBasedOnQuerys shelfYear [("year", JSValue.str "1965")] =
      .ok ((shelfYear.map (fun e => e.2)).filter
        (fun b => substrIncludes (strLower (jsToString (objGet b "year")))
          (if (1965 : Int) = 0 then "false" else "true"))) :=
  ⟨by decide, c6_numeric_query_boolean_coercion shelfYear "year"
    (JSValue.str "1965") 1965 (by decide)⟩

/-- C8: retrieving an id that was never stored should give 404, but the GET
handler indexes the shelf object directly, so an Object.prototype member
name such as constructor is found through the prototype chain and answered
with 200. -/
theorem c8_unknown_id_answered_200 :
    assocGet? ([] : Shelf) "constructor" = none ∧
    getHandler [] [] (some "constructor") = .detailFound (.protoMember "constructor") ∧
    (getHandler [] [] (some "constructor")).httpCode = 200 :=
  ⟨rfl, rfl, rfl⟩

/-- C1: a valid update payload changing name and readPage is accepted and
answered 200, yet the stored record keeps its old name and readPage and only
updatedAt moves: the put handler passes the stored record, not the payload,
to updateBook, and the spread keeps every existing field. -/
theorem c1_update_ignores_payload :
    vStatus (validatePayload
      [("name", JSValue.str "Changed"), ("readPage", JSValue.num 7),
       ("pageCount", JSValue.num 9)]) = true ∧
    (putHandler sampleShelf "B1"
      [("name", JSValue.str "Changed"), ("readPage", JSValue.num 7),
       ("pageCount", JSValue.num 9)] 8).2.code = 200 ∧
    objGet ((assocGet? (putHandler sampleShelf "B1"
      [("name", JSValue.str "Changed"), ("readPage", JSValue.num 7),
       ("pageCount", JSValue.num 9)] 8).1 "B1").getD []) "name" = JSValue.str "Dune" ∧
    objGet ((assocGet? (putHandler sampleShelf "B1"
      [("name", JSValue.str "Changed"), ("readPage", JSValue.num 7),
       ("pageCount", JSValue.num 9)] 8).1 "B1").getD []) "readPage" = JSValue.num 5 ∧
    objGet ((assocGet? (putHandler sampleShelf "B1"
      [("name", JSValue.str "Changed"), ("readPage", JSValue.num 7),
       ("pageCount", JSValue.num 9)] 8).1 "B1").getD []) "updatedAt" =
      JSValue.str (isoString 8) ∧
    objGet ((assocGet? (putHandler sampleShelf "B1"
      [("name", JSValue.str "Changed"), ("readPage", JSValue.num 7),
       ("pageCount", JSValue.num 9)] 8).1 "B1").getD []) "insertedAt" =
      JSValue.str (isoString 3) := by
  decide

/-- C3 counterexample: a payload with no recognized field at all has a
missing name, yet Create does not fail with the empty-name kind: the
validator returns the bare value false, whose undefined message falls into
the readPage branch of the handler. -/
theorem c3_counterexample :
    objHas [("foo", JSValue.num 1)] "name" = false ∧
    validatePayload [("foo", JSValue.num 1)] = .falseVal ∧
    (postHandler [] [("foo", JSValue.num 1)] "N1" 0).2.code = 400 ∧
    (postHandler [] [("foo", JSValue.num 1)] "N1" 0).2.message =
      "Gagal menambahkan buku. readPage tidak boleh lebih besar dari pageCount" ∧
    (postHandler [] [("foo", JSValue.num 1)] "N1" 0).2.message ≠
      "Gagal menambahkan buku. Mohon isi nama buku" := by
  decide

/-- C3 amended: restricted to payloads containing at least one recognized
field, the priority order holds: a falsy name always yields the empty-name
failure (even when readPage exceeds pageCount), and a truthy name with
readPage above pageCount always yields the readPage failure, never the
generic kind, on both Create and Update (the latter on a stored id). -/
theorem c3_priority_with_recognized_field (s : Shelf) (payload : JSObj)
    (newId bid : String) (now : Nat)
    (hrec : bookObjectProperties.any (fun kv => objHas payload kv.1) = true) :
    (jsTruthy (objGet payload "name") = false →
      (postHandler s payload newId now).2.code = 400 ∧
      (postHandler s payload newId now).2.message =
        "Gagal menambahkan buku. Mohon isi nama buku" ∧
      (assocHas s bid = true →
        (putHandler s bid payload now).2.code = 400 ∧
        (putHandler s bid payload now).2.message =
          "Gagal memperbarui buku. Mohon isi nama buku")) ∧
    (jsTruthy (objGet payload "name") = true →
      jsGreater (objGet payload "readPage") (objGet payload "pageCount") = true →
      (postHandler s payload newId now).2.code = 400 ∧
      (postHandler s payload newId now).2.message =
        "Gagal menambahkan buku. readPage tidak boleh lebih besar dari pageCount" ∧
      (assocHas s bid = true →
        (putHandler s bid payload now).2.code = 400 ∧
        (putHandler s bid payload now).2.message =
          "Gagal memperbarui buku. readPage tidak boleh lebih besar dari pageCount")) := by
  have hsome : (bookObjectProperties.find? (fun kv => objHas payload kv.1)).isSome := by
    rw [List.find?_isSome]
    exact List.any_eq_true.mp hrec
  obtain ⟨kv, hfind⟩ := Option.isSome_iff_exists.mp hsome
  constructor
  · intro hname
    have hv : validatePayload payload = .res false "empty name" := by
      simp [validatePayload, hfind, hname]
    refine ⟨?_, ?_, ?_⟩
    · simp [postHandler, hv, vStatus, vMessage]
    · simp [postHandler, hv, vStatus, vMessage]
    · intro hbid
      constructor
      · simp [putHandler, hbid, hv, vStatus, vMessage]
      · simp [putHandler, hbid, hv, vStatus, vMessage]
  · intro hname hpage
    have hv : validatePayload payload = .res false "readerPage is bigger then pageCount" := by
      simp [validatePayload, hfind, hname, hpage]
    refine ⟨?_, ?_, ?_⟩
    · simp [postHandler, hv, vStatus, vMessage]
    · simp [postHandler, hv, vStatus, vMessage]
    · intro hbid
      constructor
      · simp [putHandler, hbid, hv, vStatus, vMessage]
      · simp [putHandler, hbid, hv, vStatus, vMessage]

theorem c3_witness :
    (postHandler sampleShelf
      [("name", JSValue.str ""), ("readPage", JSValue.num 9),
       ("pageCount", JSValue.num 5)] "N1" 7).2.code = 400 ∧
    (postHandler sampleShelf
      [("name", JSValue.str ""), ("readPage", JSValue.num 9),
       ("pageCount", JSValue.num 5)] "N1" 7).2.message =
      "Gagal menambahkan buku. Mohon isi nama buku" ∧
    (putHandler sampleShelf "B1"
      [("name", JSValue.str ""), ("readPage", JSValue.num 9),
       ("pageCount", JSValue.num 5)] 7).2.message =
      "Gagal memperbarui buku. Mohon isi nama buku" := by
  have h := c3_priority_with_recognized_field sampleShelf
    [("name", JSValue.str ""), ("readPage", JSValue.num 9),
     ("pageCount", JSValue.num 5)] "N1" "B1" 7 (by decide)
  have h1 := h.1 (by decide)
  exact ⟨h1.1, h1.2.1, (h1.2.2 (by decide)).2⟩

/-- C7: a validated payload is created with 201 and the fresh id, the
collection grows by one, and retrieving that id returns a stored book whose
finished field equals the strict equality of its pageCount and readPage and
whose insertedAt equals its updatedAt. The id is assumed fresh and distinct
from the reserved strings of getBooks, as nanoid guarantees. -/
theorem c7_create_then_retrieve (s : Shelf) (payload : JSObj) (newId : String)
    (now : Nat)
    (hv : vStatus (validatePayload payload) = true)
    (hfresh : assocGet? s newId = none)
    (hne : newId ≠ "") (hnall : newId ≠ "all") :
    (postHandler s payload newId now).2.code = 201 ∧
    (postHandler s payload newId now).2.bookId = some newId ∧
    (postHandler s payload newId now).1.length = s.length + 1 ∧
    ∃ b : JSObj,
      getHandler (postHandler s payload newId now).1 [] (some newId) =
        .detailFound (.book b) ∧
      objGet b "finished" =
        .bool (jsStrictEq (objGet b "pageCount") (objGet b "readPage")) ∧
      objGet b "insertedAt" = objGet b "updatedAt" := by
  have hpost1 : (postHandler s payload newId now).1 = (addBook s payload newId now).1 := by
    simp [postHandler, hv]
  have hpost2 : (postHandler s payload newId now).2 =
      { status := "success", message := "Buku berhasil ditambahkan", code := 201,
        bookId := some (addBook s payload newId now).2 } := by
    simp [postHandler, hv]
  refine ⟨by rw [hpost2], by rw [hpost2]; simp [addBook], ?_, ?_⟩
  · rw [hpost1]
    simp only [addBook]
    exact length_assocSet_of_none s newId _ hfresh
  · refine ⟨assocSet (assocSet (assocSet (assocSet payload "finished"
      (.bool (jsStrictEq (objGet payload "pageCount") (objGet payload "readPage"))))
      "insertedAt" (.str (isoString now))) "updatedAt" (.str (isoString now)))
      "id" (.str newId), ?_, ?_, ?_⟩
    · rw [hpost1]
      simp only [addBook, getHandler]
      rw [if_neg (by simp)]
      rw [if_pos (by simpa using hne)]
      simp only [Option.getD_some]
      simp only [getBooksById, if_neg hnall]
      rw [assocGet?_assocSet_self]
    · have hfin : objGet (assocSet (assocSet (assocSet (assocSet payload "finished"
          (.bool (jsStrictEq (objGet payload "pageCount") (objGet payload "readPage"))))
          "insertedAt" (.str (isoString now))) "updatedAt" (.str (isoString now)))
          "id" (.str newId)) "finished" =
          .bool (jsStrictEq (objGet payload "pageCount") (objGet payload "readPage")) := by
        rw [objGet_assocSet_ne, objGet_assocSet_ne, objGet_assocSet_ne,
          objGet_assocSet_self] <;> decide
      have hpc : objGet (assocSet (assocSet (assocSet (assocSet payload "finished"
          (.bool (jsStrictEq (objGet payload "pageCount") (objGet payload "readPage"))))
          "insertedAt" (.str (isoString now))) "updatedAt" (.str (isoString now)))
          "id" (.str newId)) "pageCount" = objGet payload "pageCount" := by
        rw [objGet_assocSet_ne, objGet_assocSet_ne, objGet_assocSet_ne,
          objGet_assocSet_ne] <;> decide
      have hrp : objGet (assocSet (assocSet (assocSet (assocSet payload "finished"
          (.bool (jsStrictEq (objGet payload "pageCount") (objGet payload "readPage"))))
          "insertedAt" (.str (isoString now))) "updatedAt" (.str (isoString now)))
          "id" (.str newId)) "readPage" = objGet payload "readPage" := by
        rw [objGet_assocSet_ne, objGet_assocSet_ne, objGet_assocSet_ne,
          objGet_assocSet_ne] <;> decide
      rw [hfin, hpc, hrp]
    · have hins : objGet (assocSet (assocSet (assocSet (assocSet payload "finished"
          (.bool (jsStrictEq (objGet payload "pageCount") (objGet payload "readPage"))))
          "insertedAt" (.str (isoString now))) "updatedAt" (.str (isoString now)))
          "id" (.str newId)) "insertedAt" = JSValue.str (isoString now) := by
        rw [objGet_assocSet_ne, objGet_assocSet_ne, objGet_assocSet_self] <;> decide
      have hupd : objGet (assocSet (assocSet (assocSet (assocSet payload "finished"
          (.bool (jsStrictEq (objGet payload "pageCount") (objGet payload "readPage"))))
          "insertedAt" (.str (isoString now))) "updatedAt" (.str (isoString now)))
          "id" (.str newId)) "updatedAt" = JSValue.str (isoString now) := by
        rw [objGet_assocSet_ne, objGet_assocSet_self] <;> decide
      rw [hins, hupd]

theorem c7_witness :
    (postHandler [] dunePayload "B1" 3).2.code = 201 ∧
    (postHandler [] dunePayload "B1" 3).2.bookId = some "B1" ∧
    (postHandler [] dunePayload "B1" 3).1.length = ([] : Shelf).length + 1 ∧
    ∃ b : JSObj,
      getHandler (postHandler [] dunePayload "B1" 3).1 [] (some "B1") =
        .detailFound (.book b) ∧
      objGet b "finished" =
        .bool (jsStrictEq (objGet b "pageCount") (objGet b "readPage")) ∧
      objGet b "insertedAt" = objGet b "updatedAt" :=
  c7_create_then_retrieve [] dunePayload "B1" 3 (by decide) (by decide)
    (by decide) (by decide)

theorem postHandler_shelf (s : Shelf) (payload : JSObj) (newId : String) (now : Nat) :
    (postHandler s payload newId now).1 =
      if vStatus (validatePayload payload) then (addBook s payload newId now).1
      else s := by
  by_cases hv : vStatus (validatePayload payload)
  · rw [if_pos hv]
    simp [postHandler, hv]
  · rw [if_neg hv]
    simp only [postHandler]
    rw [if_neg hv]
    split
    · rfl
    · split <;> rfl

theorem putHandler_shelf (s : Shelf) (bookId : String) (payload : JSObj) (now : Nat) :
    (putHandler s bookId payload now).1 =
      if assocHas s bookId && vStatus (validatePayload payload) then
        (updateBook s bookId now).1
      else s := by
  cases h1 : assocHas s bookId with
  | false =>
    rw [if_neg (by simp [h1])]
    simp [putHandler, h1]
  | true =>
    cases h2 : vStatus (validatePayload payload) with
    | false =>
      rw [if_neg (by simp [h2])]
      simp only [putHandler, h1, h2, Bool.not_true, Bool.not_false]
      rw [if_pos trivial]
      split
      · rfl
      · split
        · rfl
        · split <;> rfl
    | true =>
      rw [if_pos (by simp [h1, h2])]
      simp [putHandler, h1, h2]

theorem updateBook_shelf (s : Shelf) (bookId : String) (now : Nat) (data : JSObj)
    (hget : assocGet? s bookId = some data)
    (hid : objGet data "id" = .str bookId) :
    (updateBook s bookId now).1 =
      assocSet s bookId
        (objSpread (objSpread [("updatedAt", JSValue.str (isoString now))]
            (assocSet data "updatedAt" (JSValue.str (isoString now))))
          (assocSet data "updatedAt" (JSValue.str (isoString now)))) := by
  have hid2 : objGet (assocSet data "updatedAt" (JSValue.str (isoString now))) "id" =
      JSValue.str bookId := by
    rw [objGet_assocSet_ne]
    · exact hid
    · decide
  simp only [updateBook, hget, hid2, jsToString, assocGet?_assocSet_self,
    Option.getD_some, assocSet_assocSet_same]

theorem merged_objGet_ne (data : JSObj) (now : Nat) (k : String)
    (hnd : (data.map Prod.fst).Nodup) (hk : k ≠ "updatedAt") :
    objGet (objSpread (objSpread [("updatedAt", JSValue.str (isoString now))]
        (assocSet data "updatedAt" (JSValue.str (isoString now))))
      (assocSet data "updatedAt" (JSValue.str (isoString now)))) k = objGet data k := by
  have hnd2 : ((assocSet data "updatedAt" (JSValue.str (isoString now))).map
      Prod.fst).Nodup := nodup_assocSet _ _ _ hnd
  unfold objGet
  rw [assocGet?_objSpread _ _ _ hnd2, assocGet?_assocSet_ne _ _ _ _ hk]
  by_cases hsome : (assocGet? data k).isSome
  · rw [if_pos hsome]
  · rw [if_neg hsome]
    rw [assocGet?_objSpread _ _ _ hnd2, assocGet?_assocSet_ne _ _ _ _ hk,
      if_neg hsome]
    have hpair : assocGet? [("updatedAt", JSValue.str (isoString now))] k = none := by
      simp [assocGet?, Ne.symm hk]
    rw [hpair]
    cases hopt : assocGet? data k with
    | none => rfl
    | some w => rw [hopt] at hsome; simp at hsome

theorem merged_objGet_updatedAt (data : JSObj) (now : Nat)
    (hnd : (data.map Prod.fst).Nodup) :
    objGet (objSpread (objSpread [("updatedAt", JSValue.str (isoString now))]
        (assocSet data "updatedAt" (JSValue.str (isoString now))))
      (assocSet data "updatedAt" (JSValue.str (isoString now)))) "updatedAt" =
      JSValue.str (isoString now) := by
  have hnd2 : ((assocSet data "updatedAt" (JSValue.str (isoString now))).map
      Prod.fst).Nodup := nodup_assocSet _ _ _ hnd
  unfold objGet
  rw [assocGet?_objSpread _ _ _ hnd2, assocGet?_assocSet_self]
  simp

theorem merged_keys_nodup (data : JSObj) (now : Nat) :
    ((objSpread (objSpread [("updatedAt", JSValue.str (isoString now))]
        (assocSet data "updatedAt" (JSValue.str (isoString now))))
      (assocSet data "updatedAt" (JSValue.str (isoString now)))).map Prod.fst).Nodup := by
  apply nodup_objSpread
  apply nodup_objSpread
  simp

theorem shelfInv_nil : ShelfInv [] :=
  ⟨List.nodup_nil, fun e he => absurd he (List.not_mem_nil e)⟩

theorem shelfInv_create (s : Shelf) (payload : JSObj) (newId : String) (now : Nat)
    (hkeys : (payload.map Prod.fst).Nodup)
    (hinv : ShelfInv s) : ShelfInv (postHandler s payload newId now).1 := by
  rw [postHandler_shelf]
  by_cases hv : vStatus (validatePayload payload)
  · rw [if_pos hv]
    simp only [addBook]
    constructor
    · exact nodup_assocSet _ _ _ hinv.1
    · intro e he
      rcases mem_assocSet he with he1 | he2
      · subst he1
        exact ⟨nodup_assocSet _ _ _ (nodup_assocSet _ _ _ (nodup_assocSet _ _ _
          (nodup_assocSet _ _ _ hkeys))), objGet_assocSet_self _ _ _⟩
      · exact hinv.2 e he2
  · rw [if_neg hv]
    exact hinv

theorem shelfInv_update (s : Shelf) (bookId : String) (payload : JSObj) (now : Nat)
    (hinv : ShelfInv s) : ShelfInv (putHandler s bookId payload now).1 := by
  rw [putHandler_shelf]
  by_cases hc : (assocHas s bookId && vStatus (validatePayload payload)) = true
  · rw [if_pos hc]
    have h1 : (assocGet? s bookId).isSome = true := ((Bool.and_eq_true _ _).mp hc).1
    obtain ⟨data, hget⟩ := Option.isSome_iff_exists.mp h1
    have hrec := hinv.2 _ (assocGet?_mem hget)
    rw [updateBook_shelf s bookId now data hget hrec.2]
    constructor
    · exact nodup_assocSet _ _ _ hinv.1
    · intro e he
      rcases mem_assocSet he with he1 | he2
      · subst he1
        refine ⟨merged_keys_nodup data now, ?_⟩
        rw [merged_objGet_ne data now "id" hrec.1 (by decide)]
        exact hrec.2
      · exact hinv.2 e he2
  · rw [if_neg hc]
    exact hinv

theorem shelfInv_remove (s : Shelf) (bookId : String)
    (hinv : ShelfInv s) : ShelfInv (deleteHandler s bookId).1 := by
  by_cases hd : assocHas s bookId = true
  · have h1 : (deleteHandler s bookId).1 = assocErase s bookId := by
      simp [deleteHandler, hd]
    rw [h1]
    exact ⟨nodup_assocErase _ _ hinv.1, fun e he => hinv.2 e (mem_assocErase he)⟩
  · have h1 : (deleteHandler s bookId).1 = s := by
      simp [deleteHandler, hd]
    rw [h1]
    exact hinv

theorem step_shelfInv {s s' : Shelf} (hinv : ShelfInv s) (hs : Step s s') :
    ShelfInv s' := by
  cases hs with
  | create payload newId now hkeys hfresh =>
    exact shelfInv_create _ payload newId now hkeys hinv
  | update bookId payload now => exact shelfInv_update _ bookId payload now hinv
  | remove bookId => exact shelfInv_remove _ bookId hinv
  | retrieve => exact hinv

theorem reachable_shelfInv {s : Shelf} (h : Reachable s) : ShelfInv s := by
  induction h with
  | init => exact shelfInv_nil
  | step _ hstep ih => exact step_shelfInv ih hstep

theorem step_preserves_record {s s' : Shelf} (hinv : ShelfInv s) (hs : Step s s')
    (k : String) (b b' : JSObj) (hb : assocGet? s k = some b)
    (hb' : assocGet? s' k = some b') :
    objGet b' "id" = objGet b "id" ∧
    objGet b' "insertedAt" = objGet b "insertedAt" := by
  cases hs with
  | create payload newId now hkeys hfresh =>
    rw [postHandler_shelf] at hb'
    by_cases hv : vStatus (validatePayload payload)
    · rw [if_pos hv] at hb'
      simp only [addBook] at hb'
      have hkne : k ≠ newId := by
        intro hkeq
        rw [hkeq, hfresh] at hb
        exact Option.noConfusion hb
      rw [assocGet?_assocSet_ne _ _ _ _ hkne, hb] at hb'
      injection hb' with h
      subst h
      exact ⟨rfl, rfl⟩
    · rw [if_neg hv, hb] at hb'
      injection hb' with h
      subst h
      exact ⟨rfl, rfl⟩
  | update bookId payload now =>
    rw [putHandler_shelf] at hb'
    by_cases hc : (assocHas s bookId && vStatus (validatePayload payload)) = true
    · rw [if_pos hc] at hb'
      have h1 : (assocGet? s bookId).isSome = true := ((Bool.and_eq_true _ _).mp hc).1
      obtain ⟨data, hget⟩ := Option.isSome_iff_exists.mp h1
      have hrec := hinv.2 _ (assocGet?_mem hget)
      rw [updateBook_shelf s bookId now data hget hrec.2] at hb'
      by_cases hk : k = bookId
      · subst hk
        rw [assocGet?_assocSet_self] at hb'
        injection hb' with h
        subst h
        rw [hget] at hb
        injection hb with h2
        subst h2
        exact ⟨merged_objGet_ne data now "id" hrec.1 (by decide),
               merged_objGet_ne data now "insertedAt" hrec.1 (by decide)⟩
      · rw [assocGet?_assocSet_ne _ _ _ _ hk, hb] at hb'
        injection hb' with h
        subst h
        exact ⟨rfl, rfl⟩
    · rw [if_neg hc, hb] at hb'
      injection hb' with h
      subst h
      exact ⟨rfl, rfl⟩
  | remove bookId =>
    by_cases hd : assocHas s bookId = true
    · have h1 : (deleteHandler s bookId).1 = assocErase s bookId := by
        simp [deleteHandler, hd]
      rw [h1] at hb'
      by_cases hk : k = bookId
      · subst hk
        rw [assocGet?_assocErase_self _ _ hinv.1] at hb'
        exact Option.noConfusion hb'
      · rw [assocGet?_assocErase_ne _ _ _ hk, hb] at hb'
        injection hb' with h
        subst h
        exact ⟨rfl, rfl⟩
    · have h1 : (deleteHandler s bookId).1 = s := by
        simp [deleteHandler, hd]
      rw [h1, hb] at hb'
      injection hb' with h
      subst h
      exact ⟨rfl, rfl⟩
  | retrieve =>
    rw [hb] at hb'
    injection hb' with h
    subst h
    exact ⟨rfl, rfl⟩

/-- C10: in every reachable store state the id field of each stored record
equals its shelf key, and no single handler operation changes the id or
insertedAt field of a record that persists across it. -/
theorem c10_invariants (s : Shelf) (hs : Reachable s) :
    (∀ e ∈ s, objGet e.2 "id" = JSValue.str e.1) ∧
    (∀ s' : Shelf, Step s s' → ∀ (k : String) (b b' : JSObj),
      assocGet? s k = some b → assocGet? s' k = some b' →
      objGet b' "id" = objGet b "id" ∧
      objGet b' "insertedAt" = objGet b "insertedAt") := by
  have hinv := reachable_shelfInv hs
  exact ⟨fun e he => (hinv.2 e he).2,
    fun s' hstep k b b' hb hb' => step_preserves_record hinv hstep k b b' hb hb'⟩

theorem c10_witness :
    (∀ e ∈ sampleShelf, objGet e.2 "id" = JSValue.str e.1) ∧
    (∀ s' : Shelf, Step sampleShelf s' → ∀ (k : String) (b b' : JSObj),
      assocGet? sampleShelf k = some b → assocGet? s' k = some b' →
      objGet b' "id" = objGet b "id" ∧
      objGet b' "insertedAt" = objGet b "insertedAt") :=
  c10_invariants sampleShelf
    (Reachable.step Reachable.init
      (Step.create [] dunePayload "B1" 3 (by decide) rfl))

end Books
